import Mathlib

/-!
Verification development for the `graphedexcel` dependency-graph builder
(`graphbuilder.py`).  The script scans an Excel workbook, finds every
formula cell, extracts the cell/range references from the formula text,
and builds a directed dependency graph plus a usage table of the formula
functions.  This file gives a shallow embedding of that pipeline and
proves the specification claims about it.

Modelling conventions:
* Python strings are Lean `String`s (a `String` here is its list of
  characters, so `s.data` is the character sequence).
* The networkx `DiGraph` is a structure of insertion-ordered lists:
  node keys, node `sheet` attributes (an association list, because
  `add_node(n, sheet=...)` overwrites the attribute of an existing
  node), and directed edges.  `add_edge` inserts missing endpoints and
  collapses duplicate ordered pairs, exactly like networkx.
* Python dicts (the global `functions_dict`, the `range_dependencies`
  mapping) are insertion-ordered association lists; overwriting a key
  keeps its position, new keys append at the end.
* The global `functions_dict` mutated by `stat_functions` is made
  explicit: the builder threads a `FuncDict` value through the scan.
* Cell values are either strings or "anything else" (`CellValue.other`):
  the script only inspects `isinstance(v, str) and v.startswith("=")`.
-/

/-- Association-list update used to model Python dict assignment:
overwrite the first entry with the given key keeping its position,
otherwise append a new entry at the end (dict insertion order). -/
def setAssoc {β : Type} : List (String × β) → String → β → List (String × β)
  | [], k, v => [(k, v)]
  | (m, b) :: rest, k, v =>
      if m = k then (m, v) :: rest else (m, b) :: setAssoc rest k v

/-- Association-list lookup: value of the first entry with the given key. -/
def lookupAssoc {β : Type} : List (String × β) → String → Option β
  | [], _ => none
  | (m, b) :: rest, k => if m = k then some b else lookupAssoc rest k

/-- Model of the networkx `DiGraph` used by the script: insertion-ordered
node list, per-node `sheet` attribute, insertion-ordered edge list. -/
structure DiGraph where
  nodes : List String
  attrs : List (String × String)
  edges : List (String × String)
  deriving DecidableEq, Repr

/-- The empty directed graph (`nx.DiGraph()`). -/
def emptyDiGraph : DiGraph := ⟨[], [], []⟩

/-- Model of `graph.add_node(n, sheet=a)`: appends the node key if new and
sets (or overwrites) its `sheet` attribute. -/
def DiGraph.add_node (g : DiGraph) (n : String) (sheet : String) : DiGraph :=
  { nodes := if n ∈ g.nodes then g.nodes else g.nodes ++ [n]
    attrs := setAssoc g.attrs n sheet
    edges := g.edges }

/-- Model of `graph.add_edge(u, v)`: inserts missing endpoints as
attribute-less nodes and adds the ordered pair unless already present
(networkx collapses duplicate edges). -/
def DiGraph.add_edge (g : DiGraph) (u v : String) : DiGraph :=
  let ns := if u ∈ g.nodes then g.nodes else g.nodes ++ [u]
  let ns := if v ∈ ns then ns else ns ++ [v]
  { nodes := ns
    attrs := g.attrs
    edges := if (u, v) ∈ g.edges then g.edges else g.edges ++ [(u, v)] }

/-- The `sheet` attribute a node currently carries, if any. -/
def DiGraph.nodeSheet (g : DiGraph) (n : String) : Option String :=
  lookupAssoc g.attrs n

/-- The process-wide function-usage table (`functions_dict`): function
name to occurrence count, in insertion order. -/
abbrev FuncDict := List (String × Nat)

/-- Count recorded for a function name (0 when absent), modelling
`functions_dict.get(f, 0)`. -/
def lookupCount (d : FuncDict) (f : String) : Nat :=
  (lookupAssoc d f).getD 0

/-- Character class `[A-Z]` of the reference and function regexes. -/
def isUpperAZ (c : Char) : Bool := 'A' ≤ c && c ≤ 'Z'

/-- Character class `[0-9]`. -/
def isDigit09 (c : Char) : Bool := '0' ≤ c && c ≤ '9'

/-- Scanner for `re.findall(r"[A-Z]+\(", s)`: walks the characters
accumulating the current maximal uppercase run; when the run is
non-empty and the next character is `(`, the run plus the parenthesis
is a match (this is exactly the set of non-overlapping matches the
regex engine produces, since a maximal run not followed by `(` cannot
match at any start position inside it). -/
def findUpperParenAux (run : List Char) : List Char → List String
  | [] => []
  | c :: cs =>
      if isUpperAZ c then findUpperParenAux (run ++ [c]) cs
      else if c = '(' && !run.isEmpty then
        String.mk (run ++ ['(']) :: findUpperParenAux [] cs
      else findUpperParenAux [] cs

/-- All matches of `re.findall(r"[A-Z]+\(", s)` in order. -/
def findUpperParen (s : String) : List String :=
  findUpperParenAux [] s.data

/-- Model of Python `s[:-1]` (used to strip the trailing parenthesis of
a function match). -/
def dropLast1 (s : String) : String := String.mk s.data.dropLast

/-- Model of `stat_functions(cellvalue)` from `graphbuilder.py`, with the
global `functions_dict` made an explicit argument/result: for every
regex match `[A-Z]+\(`, strip the trailing `(` and increment that
name's count (insert with count 1 when absent). -/
def bumpFunc : FuncDict → String → FuncDict
  | [], f => [(f, 1)]
  | (m, k) :: rest, f =>
      if m = f then (m, k + 1) :: rest else (m, k) :: bumpFunc rest f

/-- The whole of `stat_functions`: fold `bumpFunc` over the matches. -/
def stat_functions (d : FuncDict) (cellvalue : String) : FuncDict :=
  (findUpperParen cellvalue).foldl (fun d m => bumpFunc d (dropLast1 m)) d

/-- Result triple of `extract_references(formula)`: direct single-cell
references, range references, and the mapping from each range-member
cell to its owning range. -/
structure ExtractResult where
  direct : List String
  ranges : List String
  rangeDeps : List (String × String)
  deriving DecidableEq, Repr

/-- A cell value as far as the script can observe it: a string, or any
non-string scalar (number, `None`, ...). -/
inductive CellValue where
  | str (s : String)
  | other
  deriving DecidableEq, Repr

/-- Model of Python `v.startswith("=")` on the cell's string value. -/
def startsWithEqSign (s : String) : Bool :=
  match s.data with
  | c :: _ => c = '='
  | [] => false

/-- The `isinstance(cell.value, str) and cell.value.startswith("=")`
test of the builder loop. -/
def isFormulaValue : CellValue → Bool
  | .str s => startsWithEqSign s
  | .other => false

/-- Model of Python `"!" in s`. -/
def hasBang (s : String) : Bool := decide ('!' ∈ s.data)

/-- Model of Python `s.split("!")[0]`: everything before the first `!`. -/
def splitBang (s : String) : String :=
  String.mk (s.data.takeWhile (fun c => !decide (c = '!')))

/-- The sheet-defaulting step the builder applies to every reference:
keep it when it carries a `!` qualifier, otherwise prefix the scanning
sheet (`f"{sheet_name}!{ref}"`). -/
def qualifyWith (sheetName r : String) : String :=
  if hasBang r then r else sheetName ++ "!" ++ r

/-- Body of the `for ref_cell in direct_references` loop: resolve the
sheet, add the node with attribute `sheet = sheet_name`, and add the
edge `current_cell -> refc`. -/
def processDirectRef (sheet_name current_cell : String) (g : DiGraph)
    (ref_cell : String) : DiGraph :=
  let refc := qualifyWith sheet_name ref_cell
  (g.add_node refc sheet_name).add_edge current_cell refc

/-- Body of the `for rng in range_references` loop: resolve the sheet and
add node and edge.  The source also computes a `range_sheet` value in
this loop, but never uses it: the node attribute is `sheet=sheet_name`. -/
def processRangeRef (sheet_name current_cell : String) (g : DiGraph)
    (rng : String) : DiGraph :=
  let r := qualifyWith sheet_name rng
  (g.add_node r sheet_name).add_edge current_cell r

/-- Body of the `for single_cell, range_ref in range_dependencies.items()`
loop: resolve both addresses, compute their sheets (here the parsed
`split("!")[0]` sheet IS used as the node attribute), add both nodes and
the edge `range_ref -> single_cell`. -/
def processRangeDep (sheet_name : String) (g : DiGraph)
    (p : String × String) : DiGraph :=
  let range_ref := qualifyWith sheet_name p.2
  let range_sheet := if hasBang p.2 then splitBang range_ref else sheet_name
  let single_cell := qualifyWith sheet_name p.1
  let cell_sheet := if hasBang p.1 then splitBang single_cell else sheet_name
  ((g.add_node single_cell cell_sheet).add_node range_ref range_sheet).add_edge
    range_ref single_cell

/-- Processing of one `(coordinate, value)` cell of the sheet scan: when
the value is a formula string, run `stat_functions`, add the formula
cell as a node, extract references, and run the three reference loops;
otherwise the state is untouched. -/
def process_cell (extract : String → ExtractResult) (sheet_name coordinate : String)
    (v : CellValue) (st : DiGraph × FuncDict) : DiGraph × FuncDict :=
  match v with
  | .str s =>
      if startsWithEqSign s then
        let d := stat_functions st.2 s
        let current_cell := sheet_name ++ "!" ++ coordinate
        let g := st.1.add_node current_cell sheet_name
        let r := extract s
        let g := r.direct.foldl (processDirectRef sheet_name current_cell) g
        let g := r.ranges.foldl (processRangeRef sheet_name current_cell) g
        let g := r.rangeDeps.foldl (processRangeDep sheet_name) g
        (g, d)
      else st
  | .other => st

/-- A workbook as the loader presents it: sheets in order, each a list of
`(coordinate, value)` cells in scan order. -/
abbrev Workbook := List (String × List (String × CellValue))

/-- One sheet of the `for sheet_name in wb.sheetnames` loop. -/
def process_sheet (extract : String → ExtractResult)
    (st : DiGraph × FuncDict) (sheet : String × List (String × CellValue)) :
    DiGraph × FuncDict :=
  sheet.2.foldl (fun st c => process_cell extract sheet.1 c.1 c.2 st) st

/-- Model of `extract_formulas_and_build_dependencies(file_path)`: scan
every sheet starting from the empty graph (and the initially empty
global `functions_dict`), returning the graph together with the final
function-usage table.  The reference extractor is a parameter, matching
the import boundary of the source. -/
def extract_formulas_and_build_dependencies (extract : String → ExtractResult)
    (wb : Workbook) : DiGraph × FuncDict :=
  wb.foldl (process_sheet extract) (emptyDiGraph, [])

/-- Sheet-name character of the address grammar: letters, digits, space,
underscore, hyphen or brackets (spec section 4.1). -/
def isSheetChar (c : Char) : Bool :=
  c.isAlpha || isDigit09 c || c = ' ' || c = '_' || c = '-' || c = '[' || c = ']'

/-- One attempt to read a cell token of exactly `k` column letters
followed by one or more digits, returning the matched characters and
the rest.  Trying `k = 3, 2, 1` in order reproduces the greedy
backtracking of the regex `[A-Z]{1,3}[0-9]+`. -/
def tryCellWidth (k : Nat) (cs : List Char) : Option (List Char × List Char) :=
  let ls := cs.take k
  if ls.length = k && ls.all isUpperAZ then
    let rest := cs.drop k
    let ds := rest.takeWhile isDigit09
    if ds.isEmpty then none else some (ls ++ ds, rest.drop ds.length)
  else none

/-- Longest-first cell-token match at the current position. -/
def parseCellTok (cs : List Char) : Option (List Char × List Char) :=
  (tryCellWidth 3 cs) <|> (tryCellWidth 2 cs) <|> (tryCellWidth 1 cs)

/-- Optional sheet qualifier at the current position: a quoted or bare
sheet name followed by `!` (spec section 4.1); returns the matched
characters (qualifier text including the `!`) and the rest. -/
def parseSheetQual (cs : List Char) : Option (List Char × List Char) :=
  match cs with
  | '\'' :: rest =>
      let name := rest.takeWhile (fun c => !decide (c = '\''))
      (match rest.drop name.length with
       | '\'' :: '!' :: rest2 =>
           if name.isEmpty || !name.all isSheetChar then none
           else some ('\'' :: name ++ ['\'', '!'], rest2)
       | _ => none)
  | _ =>
      let name := cs.takeWhile isSheetChar
      if name.isEmpty then none
      else
        match cs.drop name.length with
        | '!' :: rest2 => some (name ++ ['!'], rest2)
        | _ => none

/-- Cell-or-range token after an (already matched) qualifier `pre`:
reads one cell, then prefers the longer range form `cell:cell` when a
colon and a second cell follow (longest-match rule of spec 4.2). -/
def parseRefCore (pre : List Char) (cs : List Char) : Option (List Char × List Char) :=
  match parseCellTok cs with
  | none => none
  | some (c1, rest1) =>
      match rest1 with
      | ':' :: rest2 =>
          (match parseCellTok rest2 with
           | some (c2, rest3) => some (pre ++ c1 ++ ':' :: c2, rest3)
           | none => some (pre ++ c1, rest1))
      | _ => some (pre ++ c1, rest1)

/-- Reference match at the current position: the sheet-qualified form is
tried first (it is the longer match when it exists), then the bare form. -/
def parseRefAt (cs : List Char) : Option (List Char × List Char) :=
  (match parseSheetQual cs with
   | some (pre, rest) => parseRefCore pre rest
   | none => none) <|> parseRefCore [] cs

/-- Left-to-right scan of the `$`-stripped formula: at each position try
a reference match (consuming it whole), otherwise advance one
character.  Fuel bounds the recursion by the string length. -/
def scanRefsAux : Nat → List Char → List String
  | 0, _ => []
  | _, [] => []
  | fuel + 1, cs =>
      match parseRefAt cs with
      | some (m, rest) => String.mk m :: scanRefsAux fuel rest
      | none => scanRefsAux fuel cs.tail

/-- Order-preserving de-duplication (spec 4.2: "ordered-unique sequence,
duplicates within one formula removed"). -/
def dedupFirst (l : List String) : List String :=
  l.foldl (fun acc x => if x ∈ acc then acc else acc ++ [x]) []

/-- Base-26 column-letter value: `A=1 .. Z=26, AA=27, ...` (spec 4.2). -/
def colToNum (ls : List Char) : Nat :=
  ls.foldl (fun a c => a * 26 + (c.toNat - 'A'.toNat + 1)) 0

/-- Digit-string value of a row number. -/
def digitsToNat (ds : List Char) : Nat :=
  ds.foldl (fun a c => a * 10 + (c.toNat - '0'.toNat)) 0

/-- Inverse of `colToNum` (bijective base 26 with no zero digit); four
units of fuel cover every column parsable by the 1-3 letter grammar. -/
def numToColAux : Nat → Nat → List Char
  | 0, _ => []
  | f + 1, n =>
      if n = 0 then []
      else numToColAux f ((n - 1) / 26) ++ [Char.ofNat ('A'.toNat + (n - 1) % 26)]

/-- Column letters of a 1-based column number. -/
def numToCol (n : Nat) : String := String.mk (numToColAux 4 n)

/-- Corner parse of a bare cell token: (column number, row number). -/
def parseCorner (cs : List Char) : Nat × Nat :=
  let ls := cs.takeWhile isUpperAZ
  (colToNum ls, digitsToNat ((cs.drop ls.length).takeWhile isDigit09))

/-- Member cells of a range string (spec 4.2): split off an optional
sheet qualifier, parse the two corners, normalize to top-left /
bottom-right, and enumerate rows and columns min-to-max in row-major
order; members keep the range's own qualifier when it has one. -/
def expandRange (r : String) : List String :=
  let pre := if hasBang r then splitBang r ++ "!" else ""
  let body := if hasBang r then (r.data.dropWhile (fun c => !decide (c = '!'))).tail
              else r.data
  let c1 := body.takeWhile (fun c => !decide (c = ':'))
  let c2 := (body.dropWhile (fun c => !decide (c = ':'))).tail
  let p1 := parseCorner c1
  let p2 := parseCorner c2
  let minC := min p1.1 p2.1
  let maxC := max p1.1 p2.1
  let minR := min p1.2 p2.2
  let maxR := max p1.2 p2.2
  (List.range' minR (maxR - minR + 1)).flatMap fun row =>
    (List.range' minC (maxC - minC + 1)).map fun col =>
      pre ++ numToCol col ++ toString row

/-- Modelled from the spec: `extract_references(formula)` of the module
`excel_parser`, which is not part of the sources at hand (only its
caller `graphbuilder.py` is).  Spec 4.2: strip all `$`; scan left to
right with the address grammar preferring the longest match; classify
matches with `:` as ranges and the rest as direct cell references
(each list ordered-unique); map every member cell of every range to its
owning range string, later ranges overwriting earlier ones. -/
def extract_references (formula : String) : ExtractResult :=
  let cleaned := formula.data.filter (fun c => !decide (c = '$'))
  let ms := scanRefsAux cleaned.length cleaned
  let direct := dedupFirst (ms.filter (fun m => !decide (':' ∈ m.data)))
  let ranges := dedupFirst (ms.filter (fun m => decide (':' ∈ m.data)))
  let deps := ranges.foldl
    (fun acc r => (expandRange r).foldl (fun acc cell => setAssoc acc cell r) acc) []
  ⟨direct, ranges, deps⟩

/-- Stable insertion of an entry into a count-descending list: the entry
passes only entries with a strictly greater count, so among equal
counts earlier entries stay first. -/
def insertByCountDesc (x : String × Nat) : List (String × Nat) → List (String × Nat)
  | [] => [x]
  | y :: ys => if x.2 ≥ y.2 then x :: y :: ys else y :: insertByCountDesc x ys

/-- Stable sort by count, descending.  This models both CPython's
`sorted(items, key=itemgetter(1), reverse=True)` and
`Counter.most_common` (both are stable descending sorts on the count,
keeping insertion order among ties). -/
def sortByCountDesc : List (String × Nat) → List (String × Nat)
  | [] => []
  | x :: xs => insertByCountDesc x (sortByCountDesc xs)

/-- Total degree of a node: in-degree plus out-degree, as returned by
`graph.degree()` on a networkx `DiGraph` (a self-loop counts twice). -/
def DiGraph.degree (g : DiGraph) (n : String) : Nat :=
  (g.edges.filter (fun e => decide (e.1 = n))).length
    + (g.edges.filter (fun e => decide (e.2 = n))).length

/-- Model of `dict(graph.degree())`: `(node, degree)` pairs in node
insertion order. -/
def degreeList (g : DiGraph) : List (String × Nat) :=
  g.nodes.map fun n => (n, g.degree n)

/-- Model of Python `s.ljust(w, " ")`. -/
def ljust (s : String) (w : Nat) : String :=
  s ++ String.mk (List.replicate (w - s.data.length) ' ')

/-- Model of Python `s.rjust(w, " ")`. -/
def rjust (s : String) (w : Nat) : String :=
  String.mk (List.replicate (w - s.data.length) ' ') ++ s

/-- Model of `print_summary(graph, functionsdict)`: the list of printed
lines, one list entry per output line (`print()` becomes `""`, the
`"\n=== ..."` print becomes an empty line followed by the header). -/
def print_summary (graph : DiGraph) (functionsdict : FuncDict) : List String :=
  let strpadsize := 28
  let numpadsize := 5
  let out1 := ["=== Dependency Graph Summary ==="]
  let out2 := out1 ++
    [ljust "Cell/Node count" strpadsize ++ rjust (toString graph.nodes.length) numpadsize]
  let out3 := out2 ++
    [ljust "Dependency count" strpadsize ++ rjust (toString graph.edges.length) numpadsize]
  let out4 := out3 ++ [""]
  let degree_counts := degreeList graph
  let max_degree_node := (sortByCountDesc degree_counts).take 10
  let out5 := out4 ++ ["=== Nodes with the highest degree ==="]
  let out6 := out5 ++ max_degree_node.map
    (fun p => ljust p.1 strpadsize ++ rjust (toString p.2) numpadsize ++ " ")
  let out7 := out6 ++ ["", "=== Formula functions by count ==="]
  let sorted_functions := sortByCountDesc functionsdict
  out7 ++ sorted_functions.map
    (fun p => ljust p.1 strpadsize ++ rjust (toString p.2) numpadsize)

/-- Events observable from the `__main__` block: a printed line, the
call into the graph renderer, or the renderer logging a render error. -/
inductive Event where
  | out (line : String)
  | renderCall (directed : Bool) (path : String)
  | renderErrorLogged
  deriving DecidableEq, Repr

/-- Whether an event is the renderer invocation. -/
def isRenderCall : Event → Bool
  | .renderCall _ _ => true
  | _ => false

/-- Outcome of the rendering backend, abstracting whatever can go wrong
while drawing the image. -/
inductive RenderOutcome where
  | ok
  | err
  deriving DecidableEq, Repr

/-- Model of `log(msg)` from `graphbuilder.py`: the lines printed, which
is `msg` exactly when `--verbose` is among the process arguments. -/
def log (argv : List String) (msg : String) : List String :=
  if "--verbose" ∈ argv then [msg] else []

/-- Model of `if len(sys.argv) > 1: path_to_excel = sys.argv[1]` with the
default `"Book1.xlsx"`; `argv` is the full `sys.argv` including the
program name. -/
def pathOf (argv : List String) : String :=
  match argv with
  | _ :: a :: _ => a
  | _ => "Book1.xlsx"

/-- Modelled from the spec: `visualize_dependency_graph` of the module
`graph_visualizer`, which is not part of the sources at hand.  Per spec
sections 6 and 7 it renders the graph coerced to undirected unless
`--keep-direction` is passed, and any render failure is non-fatal:
logged, then control returns normally. -/
def visualize_dependency_graph (argv : List String) (_g : DiGraph)
    (path : String) (oc : RenderOutcome) : List Event :=
  Event.renderCall (decide ("--keep-direction" ∈ argv)) path ::
    (match oc with
     | .ok => []
     | .err => [Event.renderErrorLogged])

/-- Model of the `__main__` block: pick the document path, build the
graph, print the summary, and (unless `--no-visualize` is passed) print
the notice and invoke the renderer.  Returns the event trace and the
process exit status. -/
def mainRun (argv : List String) (load : String → Workbook)
    (extract : String → ExtractResult) (oc : RenderOutcome) : List Event × Nat :=
  let path_to_excel := pathOf argv
  let st := extract_formulas_and_build_dependencies extract (load path_to_excel)
  let summary := (print_summary st.1 st.2).map Event.out
  if "--no-visualize" ∈ argv then (summary, 0)
  else
    (summary ++
      Event.out "\x1b[1;30;40m\nVisualizing the graph of dependencies.\nThis might take a while...\x1b[0;37;40m\n" ::
        visualize_dependency_graph argv st.1 path_to_excel oc, 0)

/-! Helper lemmas about the association-list and graph primitives. -/

theorem lookupAssoc_cons {β : Type} (a : String) (b : β) (rest : List (String × β))
    (m : String) :
    lookupAssoc ((a, b) :: rest) m = if a = m then some b else lookupAssoc rest m := rfl

theorem lookupAssoc_setAssoc {β : Type} (d : List (String × β)) (k : String)
    (v : β) (m : String) :
    lookupAssoc (setAssoc d k v) m = if m = k then some v else lookupAssoc d m := by
  induction d with
  | nil =>
      simp only [setAssoc, lookupAssoc_cons, lookupAssoc]
      by_cases h : m = k
      · rw [if_pos h.symm, if_pos h]
      · rw [if_neg (fun hh : k = m => h hh.symm), if_neg h]
  | cons p rest ih =>
      obtain ⟨a, b⟩ := p
      by_cases hak : a = k
      · subst hak
        have hset : setAssoc ((a, b) :: rest) a v = (a, v) :: rest := by
          simp [setAssoc]
        rw [hset, lookupAssoc_cons, lookupAssoc_cons]
        by_cases hma : m = a
        · simp [hma]
        · have ham : ¬ a = m := fun hh => hma hh.symm
          rw [if_neg ham, if_neg hma, if_neg ham]
      · have hset : setAssoc ((a, b) :: rest) k v = (a, b) :: setAssoc rest k v := by
          simp [setAssoc, hak]
        rw [hset, lookupAssoc_cons, lookupAssoc_cons]
        by_cases hma : a = m
        · have hmk : ¬ m = k := fun hh => hak (hma.trans hh)
          rw [if_pos hma, if_neg hmk, if_pos hma]
        · rw [if_neg hma, if_neg hma, ih]

theorem lookupCount_cons (a : String) (b : Nat) (rest : FuncDict) (m : String) :
    lookupCount ((a, b) :: rest) m = if a = m then b else lookupCount rest m := by
  simp only [lookupCount, lookupAssoc_cons]
  by_cases h : a = m
  · rw [if_pos h, if_pos h]; rfl
  · rw [if_neg h, if_neg h]

theorem lookupCount_bumpFunc (d : FuncDict) (f m : String) :
    lookupCount (bumpFunc d f) m
      = lookupCount d m + (if m = f then 1 else 0) := by
  induction d with
  | nil =>
      simp only [bumpFunc, lookupCount_cons]
      by_cases h : m = f
      · rw [if_pos h.symm, if_pos h]; rfl
      · rw [if_neg (fun hh : f = m => h hh.symm), if_neg h]; rfl
  | cons p rest ih =>
      obtain ⟨a, b⟩ := p
      by_cases haf : a = f
      · subst haf
        have hset : bumpFunc ((a, b) :: rest) a = (a, b + 1) :: rest := by
          simp [bumpFunc]
        rw [hset, lookupCount_cons, lookupCount_cons]
        by_cases hma : m = a
        · simp [hma]
        · have ham : ¬ a = m := fun hh => hma hh.symm
          rw [if_neg ham, if_neg ham, if_neg hma]
          omega
      · have hset : bumpFunc ((a, b) :: rest) f = (a, b) :: bumpFunc rest f := by
          simp [bumpFunc, haf]
        rw [hset, lookupCount_cons, lookupCount_cons]
        by_cases hma : a = m
        · have hmf : ¬ m = f := fun hh => haf (hma.trans hh)
          rw [if_pos hma, if_pos hma, if_neg hmf]
          omega
        · rw [if_neg hma, if_neg hma, ih]

theorem lookupCount_foldl_bump (l : List String) (d : FuncDict) (m : String) :
    lookupCount (l.foldl bumpFunc d) m = lookupCount d m + l.count m := by
  induction l generalizing d with
  | nil => simp
  | cons a t ih =>
      rw [List.foldl_cons, ih, lookupCount_bumpFunc, List.count_cons]
      simp only [beq_iff_eq]
      by_cases h : m = a
      · simp only [h, eq_self_iff_true, if_true]
        omega
      · have ham : ¬ a = m := fun hh => h hh.symm
        simp only [if_neg h, if_neg ham]
        omega

theorem foldl_preserve {σ α : Type} (P : σ → Prop) (f : σ → α → σ)
    (h : ∀ s x, P s → P (f s x)) :
    ∀ (l : List α) (s : σ), P s → P (l.foldl f s) := by
  intro l
  induction l with
  | nil => intro s hs; simpa using hs
  | cons a t ih => intro s hs; exact ih (f s a) (h s a hs)

theorem foldl_reach {σ α : Type} (P : σ → Prop) (f : σ → α → σ)
    (hpres : ∀ s x, P s → P (f s x)) (a : α) (hhit : ∀ s, P (f s a)) :
    ∀ (l : List α) (s : σ), a ∈ l → P (l.foldl f s) := by
  intro l
  induction l with
  | nil => intro s h; cases h
  | cons b t ih =>
      intro s hmem
      rcases List.mem_cons.mp hmem with hb | ht
      · subst hb
        exact foldl_preserve P f hpres t (f s a) (hhit s)
      · exact ih (f s b) ht

theorem edges_add_node (g : DiGraph) (n a : String) :
    (g.add_node n a).edges = g.edges := rfl

theorem edges_add_edge (g : DiGraph) (u v : String) :
    (g.add_edge u v).edges
      = if (u, v) ∈ g.edges then g.edges else g.edges ++ [(u, v)] := rfl

theorem attrs_add_edge (g : DiGraph) (u v : String) :
    (g.add_edge u v).attrs = g.attrs := rfl

theorem mem_edges_add_edge (g : DiGraph) (u v : String) (e : String × String)
    (h : e ∈ g.edges) : e ∈ (g.add_edge u v).edges := by
  rw [edges_add_edge]
  by_cases hmem : (u, v) ∈ g.edges
  · rwa [if_pos hmem]
  · rw [if_neg hmem]
    exact List.mem_append_left _ h

theorem self_mem_add_edge (g : DiGraph) (u v : String) :
    (u, v) ∈ (g.add_edge u v).edges := by
  rw [edges_add_edge]
  by_cases hmem : (u, v) ∈ g.edges
  · rwa [if_pos hmem]
  · rw [if_neg hmem]
    exact List.mem_append_right _ (List.mem_singleton.mpr rfl)

theorem nodup_add_edge (g : DiGraph) (u v : String)
    (h : g.edges.Nodup) : (g.add_edge u v).edges.Nodup := by
  rw [edges_add_edge]
  by_cases hmem : (u, v) ∈ g.edges
  · rwa [if_pos hmem]
  · rw [if_neg hmem]
    simpa [List.nodup_append, hmem] using h

theorem eq_add_edge_self (g : DiGraph) (u v : String) :
    ((g.add_edge u v).add_edge u v).edges = (g.add_edge u v).edges := by
  rw [edges_add_edge (g.add_edge u v), if_pos (self_mem_add_edge g u v)]

theorem mem_nodes_add_node_self (g : DiGraph) (n a : String) :
    n ∈ (g.add_node n a).nodes := by
  show n ∈ (if n ∈ g.nodes then g.nodes else g.nodes ++ [n])
  by_cases h : n ∈ g.nodes
  · rwa [if_pos h]
  · rw [if_neg h]
    exact List.mem_append_right _ (List.mem_singleton.mpr rfl)

theorem mem_nodes_add_node (g : DiGraph) (n a m : String) (h : m ∈ g.nodes) :
    m ∈ (g.add_node n a).nodes := by
  show m ∈ (if n ∈ g.nodes then g.nodes else g.nodes ++ [n])
  by_cases hn : n ∈ g.nodes
  · rwa [if_pos hn]
  · rw [if_neg hn]
    exact List.mem_append_left _ h

theorem mem_nodes_add_edge (g : DiGraph) (u v m : String) (h : m ∈ g.nodes) :
    m ∈ (g.add_edge u v).nodes := by
  show m ∈ (let ns := if u ∈ g.nodes then g.nodes else g.nodes ++ [u];
            if v ∈ ns then ns else ns ++ [v])
  have h1 : m ∈ (if u ∈ g.nodes then g.nodes else g.nodes ++ [u]) := by
    by_cases hu : u ∈ g.nodes
    · rwa [if_pos hu]
    · rw [if_neg hu]; exact List.mem_append_left _ h
  by_cases hv : v ∈ (if u ∈ g.nodes then g.nodes else g.nodes ++ [u])
  · simpa [hv] using h1
  · simp only [if_neg hv]
    exact List.mem_append_left _ h1

theorem nodeSheet_add_node (g : DiGraph) (n a m : String) :
    (g.add_node n a).nodeSheet m = if m = n then some a else g.nodeSheet m := by
  simp [DiGraph.nodeSheet, DiGraph.add_node, lookupAssoc_setAssoc]

theorem nodeSheet_add_edge (g : DiGraph) (u v m : String) :
    (g.add_edge u v).nodeSheet m = g.nodeSheet m := rfl

/-! Lemmas about the stable descending sort used by the reporter. -/

theorem mem_insertByCountDesc (x z : String × Nat) (m : List (String × Nat)) :
    z ∈ insertByCountDesc x m ↔ z = x ∨ z ∈ m := by
  induction m with
  | nil => simp [insertByCountDesc]
  | cons y ys ih =>
      simp only [insertByCountDesc]
      by_cases h : x.2 ≥ y.2
      · simp [h, List.mem_cons]
      · simp only [if_neg h, List.mem_cons, ih]
        tauto

theorem perm_insertByCountDesc (x : String × Nat) (m : List (String × Nat)) :
    (insertByCountDesc x m).Perm (x :: m) := by
  induction m with
  | nil => simp [insertByCountDesc]
  | cons y ys ih =>
      simp only [insertByCountDesc]
      by_cases h : x.2 ≥ y.2
      · rw [if_pos h]
      · rw [if_neg h]
        exact (ih.cons y).trans (List.Perm.swap x y ys)

theorem perm_sortByCountDesc (l : List (String × Nat)) :
    (sortByCountDesc l).Perm l := by
  induction l with
  | nil => simp [sortByCountDesc]
  | cons x xs ih =>
      exact (perm_insertByCountDesc x (sortByCountDesc xs)).trans (ih.cons x)

theorem pairwise_insertByCountDesc (x : String × Nat) (m : List (String × Nat))
    (hm : m.Pairwise (fun p q => q.2 ≤ p.2)) :
    (insertByCountDesc x m).Pairwise (fun p q => q.2 ≤ p.2) := by
  induction m with
  | nil => simp [insertByCountDesc]
  | cons y ys ih =>
      rcases List.pairwise_cons.mp hm with ⟨hy, hys⟩
      simp only [insertByCountDesc]
      by_cases h : x.2 ≥ y.2
      · rw [if_pos h]
        refine List.pairwise_cons.mpr ⟨?_, hm⟩
        intro z hz
        rcases List.mem_cons.mp hz with hzy | hzys
        · subst hzy; exact h
        · exact le_trans (hy z hzys) h
      · rw [if_neg h]
        refine List.pairwise_cons.mpr ⟨?_, ih hys⟩
        intro z hz
        rcases (mem_insertByCountDesc x z ys).mp hz with hzx | hzys
        · subst hzx; omega
        · exact hy z hzys

theorem pairwise_sortByCountDesc (l : List (String × Nat)) :
    (sortByCountDesc l).Pairwise (fun p q => q.2 ≤ p.2) := by
  induction l with
  | nil => simp [sortByCountDesc]
  | cons x xs ih => exact pairwise_insertByCountDesc x (sortByCountDesc xs) ih

theorem filter_insertByCountDesc_eq (c : Nat) (x : String × Nat)
    (m : List (String × Nat)) (hx : x.2 = c) :
    (insertByCountDesc x m).filter (fun p => decide (p.2 = c))
      = x :: m.filter (fun p => decide (p.2 = c)) := by
  induction m with
  | nil => simp [insertByCountDesc, hx]
  | cons y ys ih =>
      simp only [insertByCountDesc]
      by_cases h : x.2 ≥ y.2
      · rw [if_pos h]
        simp [hx]
      · rw [if_neg h]
        have hy : ¬ y.2 = c := by omega
        simp only [List.filter_cons]
        simp [hy, ih]

theorem filter_insertByCountDesc_ne (c : Nat) (x : String × Nat)
    (m : List (String × Nat)) (hx : ¬ x.2 = c) :
    (insertByCountDesc x m).filter (fun p => decide (p.2 = c))
      = m.filter (fun p => decide (p.2 = c)) := by
  induction m with
  | nil => simp [insertByCountDesc, hx]
  | cons y ys ih =>
      simp only [insertByCountDesc]
      by_cases h : x.2 ≥ y.2
      · rw [if_pos h]
        simp [hx]
      · rw [if_neg h]
        simp only [List.filter_cons]
        by_cases hy : y.2 = c
        · simp [hy, ih]
        · simp [hy, ih]

theorem filter_sortByCountDesc (l : List (String × Nat)) (c : Nat) :
    (sortByCountDesc l).filter (fun p => decide (p.2 = c))
      = l.filter (fun p => decide (p.2 = c)) := by
  induction l with
  | nil => simp [sortByCountDesc]
  | cons x xs ih =>
      simp only [sortByCountDesc]
      by_cases hx : x.2 = c
      · rw [filter_insertByCountDesc_eq c x _ hx, ih, List.filter_cons]
        simp [hx]
      · rw [filter_insertByCountDesc_ne c x _ hx, ih, List.filter_cons]
        simp [hx]

/-! String lemmas about qualification and sheet splitting. -/

theorem takeWhile_all_append (p : Char → Bool) (l1 l2 : List Char)
    (h : ∀ c ∈ l1, p c = true) :
    (l1 ++ l2).takeWhile p = l1 ++ l2.takeWhile p := by
  induction l1 with
  | nil => simp
  | cons c cs ih =>
      have hc : p c = true := h c (List.mem_cons_self c cs)
      simp only [List.cons_append, List.takeWhile_cons, hc, if_true]
      rw [ih fun d hd => h d (List.mem_cons_of_mem c hd)]

theorem splitBang_cat (S T : String) (hS : '!' ∉ S.data) :
    splitBang (S ++ "!" ++ T) = S := by
  have hdata : (S ++ "!" ++ T).data = S.data ++ ('!' :: T.data) := by
    rw [String.data_append, String.data_append]
    show S.data ++ ['!'] ++ T.data = S.data ++ '!' :: T.data
    rw [List.append_assoc]
    rfl
  have hall : ∀ c ∈ S.data, (!decide (c = '!')) = true := by
    intro c hc
    have : ¬ c = '!' := fun hh => hS (hh ▸ hc)
    simp [this]
  have : (S ++ "!" ++ T).data.takeWhile (fun c => !decide (c = '!')) = S.data := by
    rw [hdata, takeWhile_all_append _ _ _ hall]
    simp [List.takeWhile_cons]
  simp only [splitBang, this]

theorem qualifyWith_of_no_bang (S r : String) (h : hasBang r = false) :
    qualifyWith S r = S ++ "!" ++ r := by
  simp [qualifyWith, h]

theorem qualifyWith_of_bang (S r : String) (h : hasBang r = true) :
    qualifyWith S r = r := by
  simp [qualifyWith, h]

/-! Step lemmas for the three reference loops of the builder. -/

theorem processDirectRef_eq (S cc : String) (g : DiGraph) (r : String) :
    processDirectRef S cc g r
      = (g.add_node (qualifyWith S r) S).add_edge cc (qualifyWith S r) := rfl

theorem processRangeRef_eq (S cc : String) (g : DiGraph) (r : String) :
    processRangeRef S cc g r
      = (g.add_node (qualifyWith S r) S).add_edge cc (qualifyWith S r) := rfl

theorem processRangeDep_eq (S : String) (g : DiGraph) (p : String × String) :
    processRangeDep S g p
      = ((g.add_node (qualifyWith S p.1)
            (if hasBang p.1 then splitBang (qualifyWith S p.1) else S)).add_node
          (qualifyWith S p.2)
          (if hasBang p.2 then splitBang (qualifyWith S p.2) else S)).add_edge
        (qualifyWith S p.2) (qualifyWith S p.1) := rfl

theorem edges_mono_processDirectRef (S cc : String) (g : DiGraph) (r : String)
    (e : String × String) (h : e ∈ g.edges) :
    e ∈ (processDirectRef S cc g r).edges := by
  rw [processDirectRef_eq]
  exact mem_edges_add_edge _ _ _ _ (by rw [edges_add_node]; exact h)

theorem edges_mono_processRangeRef (S cc : String) (g : DiGraph) (r : String)
    (e : String × String) (h : e ∈ g.edges) :
    e ∈ (processRangeRef S cc g r).edges := by
  rw [processRangeRef_eq]
  exact mem_edges_add_edge _ _ _ _ (by rw [edges_add_node]; exact h)

theorem edges_mono_processRangeDep (S : String) (g : DiGraph) (p : String × String)
    (e : String × String) (h : e ∈ g.edges) :
    e ∈ (processRangeDep S g p).edges := by
  rw [processRangeDep_eq]
  exact mem_edges_add_edge _ _ _ _ (by rw [edges_add_node, edges_add_node]; exact h)

theorem processDirectRef_adds_edge (S cc r : String) (h : hasBang r = false)
    (g : DiGraph) : (cc, S ++ "!" ++ r) ∈ (processDirectRef S cc g r).edges := by
  rw [processDirectRef_eq, qualifyWith_of_no_bang S r h]
  exact self_mem_add_edge _ _ _

theorem nodup_processDirectRef (S cc : String) (g : DiGraph) (r : String)
    (h : g.edges.Nodup) : (processDirectRef S cc g r).edges.Nodup := by
  rw [processDirectRef_eq]
  exact nodup_add_edge _ _ _ (by rw [edges_add_node]; exact h)

theorem nodup_processRangeRef (S cc : String) (g : DiGraph) (r : String)
    (h : g.edges.Nodup) : (processRangeRef S cc g r).edges.Nodup := by
  rw [processRangeRef_eq]
  exact nodup_add_edge _ _ _ (by rw [edges_add_node]; exact h)

theorem nodup_processRangeDep (S : String) (g : DiGraph) (p : String × String)
    (h : g.edges.Nodup) : (processRangeDep S g p).edges.Nodup := by
  rw [processRangeDep_eq]
  exact nodup_add_edge _ _ _ (by rw [edges_add_node, edges_add_node]; exact h)

theorem nodeSheet_processDirectRef (S cc m : String) (g : DiGraph) (r : String)
    (h : g.nodeSheet m = some S) :
    (processDirectRef S cc g r).nodeSheet m = some S := by
  rw [processDirectRef_eq, nodeSheet_add_edge, nodeSheet_add_node]
  by_cases hm : m = qualifyWith S r
  · rw [if_pos hm]
  · rw [if_neg hm]; exact h

theorem nodeSheet_processRangeRef (S cc m : String) (g : DiGraph) (r : String)
    (h : g.nodeSheet m = some S) :
    (processRangeRef S cc g r).nodeSheet m = some S := by
  rw [processRangeRef_eq, nodeSheet_add_edge, nodeSheet_add_node]
  by_cases hm : m = qualifyWith S r
  · rw [if_pos hm]
  · rw [if_neg hm]; exact h

theorem resolved_sheet_eq (S coord r : String) (hS : '!' ∉ S.data)
    (hq : qualifyWith S r = S ++ "!" ++ coord) :
    (if hasBang r then splitBang (qualifyWith S r) else S) = S := by
  by_cases hb : hasBang r = true
  · rw [if_pos hb, hq]
    exact splitBang_cat S coord hS
  · simp [hb]

theorem nodeSheet_processRangeDep (S coord : String) (hS : '!' ∉ S.data)
    (g : DiGraph) (p : String × String)
    (h : g.nodeSheet (S ++ "!" ++ coord) = some S) :
    (processRangeDep S g p).nodeSheet (S ++ "!" ++ coord) = some S := by
  rw [processRangeDep_eq, nodeSheet_add_edge, nodeSheet_add_node, nodeSheet_add_node]
  by_cases h2 : S ++ "!" ++ coord = qualifyWith S p.2
  · rw [if_pos h2, resolved_sheet_eq S coord p.2 hS h2.symm]
  · rw [if_neg h2]
    by_cases h1 : S ++ "!" ++ coord = qualifyWith S p.1
    · rw [if_pos h1, resolved_sheet_eq S coord p.1 hS h1.symm]
    · rw [if_neg h1]; exact h

theorem mem_nodes_processDirectRef (S cc m : String) (g : DiGraph) (r : String)
    (h : m ∈ g.nodes) : m ∈ (processDirectRef S cc g r).nodes := by
  rw [processDirectRef_eq]
  exact mem_nodes_add_edge _ _ _ _ (mem_nodes_add_node _ _ _ _ h)

theorem mem_nodes_processRangeRef (S cc m : String) (g : DiGraph) (r : String)
    (h : m ∈ g.nodes) : m ∈ (processRangeRef S cc g r).nodes := by
  rw [processRangeRef_eq]
  exact mem_nodes_add_edge _ _ _ _ (mem_nodes_add_node _ _ _ _ h)

theorem mem_nodes_processRangeDep (S m : String) (g : DiGraph) (p : String × String)
    (h : m ∈ g.nodes) : m ∈ (processRangeDep S g p).nodes := by
  rw [processRangeDep_eq]
  exact mem_nodes_add_edge _ _ _ _ (mem_nodes_add_node _ _ _ _ (mem_nodes_add_node _ _ _ _ h))

/-! Lemmas about the per-cell processing step. -/

theorem process_cell_formula (extract : String → ExtractResult) (S coord s : String)
    (st : DiGraph × FuncDict) (h : startsWithEqSign s = true) :
    process_cell extract S coord (CellValue.str s) st
      = ((extract s).rangeDeps.foldl (processRangeDep S)
           ((extract s).ranges.foldl (processRangeRef S (S ++ "!" ++ coord))
             ((extract s).direct.foldl (processDirectRef S (S ++ "!" ++ coord))
               (st.1.add_node (S ++ "!" ++ coord) S))),
         stat_functions st.2 s) := by
  simp [process_cell, h]

theorem process_cell_nonformula (extract : String → ExtractResult) (S coord : String)
    (v : CellValue) (st : DiGraph × FuncDict) (h : isFormulaValue v = false) :
    process_cell extract S coord v st = st := by
  cases v with
  | str s =>
      have hs : startsWithEqSign s = false := by simpa [isFormulaValue] using h
      simp [process_cell, hs]
  | other => rfl

theorem nodup_process_cell (extract : String → ExtractResult) (S coord : String)
    (v : CellValue) (st : DiGraph × FuncDict) (h : st.1.edges.Nodup) :
    (process_cell extract S coord v st).1.edges.Nodup := by
  by_cases hf : isFormulaValue v = true
  · cases v with
    | other => simp [isFormulaValue] at hf
    | str s =>
        have hs : startsWithEqSign s = true := by simpa [isFormulaValue] using hf
        rw [process_cell_formula extract S coord s st hs]
        refine foldl_preserve (fun g : DiGraph => g.edges.Nodup) (processRangeDep S)
          (fun g p hg => nodup_processRangeDep S g p hg) _ _ ?_
        refine foldl_preserve (fun g : DiGraph => g.edges.Nodup)
          (processRangeRef S (S ++ "!" ++ coord))
          (fun g r hg => nodup_processRangeRef _ _ g r hg) _ _ ?_
        refine foldl_preserve (fun g : DiGraph => g.edges.Nodup)
          (processDirectRef S (S ++ "!" ++ coord))
          (fun g r hg => nodup_processDirectRef _ _ g r hg) _ _ ?_
        simpa [edges_add_node] using h
  · rw [process_cell_nonformula extract S coord v st (by simpa using hf)]
    exact h

theorem nodup_extract_build (extract : String → ExtractResult) (wb : Workbook) :
    (extract_formulas_and_build_dependencies extract wb).1.edges.Nodup := by
  simp only [extract_formulas_and_build_dependencies]
  refine foldl_preserve (fun st : DiGraph × FuncDict => st.1.edges.Nodup)
    (process_sheet extract) ?_ wb (emptyDiGraph, []) ?_
  · intro st sheet hst
    simp only [process_sheet]
    exact foldl_preserve (fun st : DiGraph × FuncDict => st.1.edges.Nodup)
      (fun st c => process_cell extract sheet.1 c.1 c.2 st)
      (fun st c hc => nodup_process_cell extract sheet.1 c.1 c.2 st hc) sheet.2 st hst
  · simp [emptyDiGraph]

theorem stat_functions_lookupCount (d : FuncDict) (s f : String) :
    lookupCount (stat_functions d s) f
      = lookupCount d f + ((findUpperParen s).map dropLast1).count f := by
  have hfold : stat_functions d s = ((findUpperParen s).map dropLast1).foldl bumpFunc d := by
    rw [stat_functions, List.foldl_map]
  rw [hfold, lookupCount_foldl_bump]

/-! The specification claims. -/

/-- C1: for every formula cell on sheet `S` whose formula contains a
single-cell reference `R` without a sheet qualifier, the builder
qualifies `R` with `S` — the formula's own sheet and no other — and the
scan of that cell adds the directed edge `S!coord -> S!R` to the graph. -/
theorem builder_defaults_unqualified_ref_to_own_sheet
    (extract : String → ExtractResult) (st : DiGraph × FuncDict)
    (S coord s R : String)
    (hf : startsWithEqSign s = true)
    (hR : R ∈ (extract s).direct)
    (hq : hasBang R = false) :
    (S ++ "!" ++ coord, S ++ "!" ++ R)
      ∈ (process_cell extract S coord (CellValue.str s) st).1.edges := by
  rw [process_cell_formula extract S coord s st hf]
  refine foldl_preserve
    (fun g : DiGraph => (S ++ "!" ++ coord, S ++ "!" ++ R) ∈ g.edges)
    (processRangeDep S) (fun g p hg => edges_mono_processRangeDep S g p _ hg) _ _ ?_
  refine foldl_preserve
    (fun g : DiGraph => (S ++ "!" ++ coord, S ++ "!" ++ R) ∈ g.edges)
    (processRangeRef S (S ++ "!" ++ coord))
    (fun g r hg => edges_mono_processRangeRef _ _ g r _ hg) _ _ ?_
  exact foldl_reach
    (fun g : DiGraph => (S ++ "!" ++ coord, S ++ "!" ++ R) ∈ g.edges)
    (processDirectRef S (S ++ "!" ++ coord))
    (fun g r hg => edges_mono_processDirectRef _ _ g r _ hg) R
    (fun g => processDirectRef_adds_edge S (S ++ "!" ++ coord) R hq g)
    (extract s).direct _ hR

/-- Witness for C1: on sheet `Sheet1`, cell `B2` with formula `=A1+1`
(whose extraction yields the unqualified reference `A1`) produces the
edge `Sheet1!B2 -> Sheet1!A1`. -/
theorem builder_defaults_unqualified_ref_witness :
    startsWithEqSign "=A1+1" = true
    ∧ "A1" ∈ (extract_references "=A1+1").direct
    ∧ hasBang "A1" = false
    ∧ ("Sheet1" ++ "!" ++ "B2", "Sheet1" ++ "!" ++ "A1")
        ∈ (process_cell extract_references "Sheet1" "B2" (CellValue.str "=A1+1")
            (emptyDiGraph, [])).1.edges :=
  ⟨by decide, by decide, by decide,
   builder_defaults_unqualified_ref_to_own_sheet extract_references (emptyDiGraph, [])
     "Sheet1" "B2" "=A1+1" "A1" (by decide) (by decide) (by decide)⟩

/-- C2: a workbook whose Sheet1 cell D4 holds `=SUM(A1:A2)` produces
exactly the nodes `Sheet1!D4, Sheet1!A1:A2, Sheet1!A1, Sheet1!A2`,
exactly the edges `D4 -> A1:A2`, `A1:A2 -> A1`, `A1:A2 -> A2` (the
range-member edges pointing from the range node to each member), and
the function table `{SUM: 1}`. -/
theorem sum_range_scenario_graph :
    (extract_formulas_and_build_dependencies extract_references
        [("Sheet1", [("D4", CellValue.str "=SUM(A1:A2)")])]).1.nodes
      = ["Sheet1!D4", "Sheet1!A1:A2", "Sheet1!A1", "Sheet1!A2"]
    ∧ (extract_formulas_and_build_dependencies extract_references
        [("Sheet1", [("D4", CellValue.str "=SUM(A1:A2)")])]).1.edges
      = [("Sheet1!D4", "Sheet1!A1:A2"), ("Sheet1!A1:A2", "Sheet1!A1"),
         ("Sheet1!A1:A2", "Sheet1!A2")]
    ∧ (extract_formulas_and_build_dependencies extract_references
        [("Sheet1", [("D4", CellValue.str "=SUM(A1:A2)")])]).2
      = [("SUM", 1)] := by
  decide

/-- C3: the function counter bumps each name matched by `[A-Z]+\(`
(stripped of the parenthesis) by exactly one per textual occurrence;
in particular `=SUM(A1:A3)+SUM(B1:B3)` bumps `SUM` by exactly 2 in one
pass and leaves every other count unchanged. -/
theorem function_counter_counts_per_occurrence :
    (∀ (d : FuncDict) (s f : String),
        lookupCount (stat_functions d s) f
          = lookupCount d f + ((findUpperParen s).map dropLast1).count f)
    ∧ ∀ d : FuncDict,
        lookupCount (stat_functions d "=SUM(A1:A3)+SUM(B1:B3)") "SUM"
          = lookupCount d "SUM" + 2
        ∧ ∀ g : String, g ≠ "SUM" →
            lookupCount (stat_functions d "=SUM(A1:A3)+SUM(B1:B3)") g
              = lookupCount d g := by
  have hm : (findUpperParen "=SUM(A1:A3)+SUM(B1:B3)").map dropLast1
      = ["SUM", "SUM"] := by decide
  refine ⟨stat_functions_lookupCount, fun d => ⟨?_, fun g hg => ?_⟩⟩
  · rw [stat_functions_lookupCount, hm]
    have h2 : (["SUM", "SUM"] : List String).count "SUM" = 2 := by decide
    rw [h2]
  · rw [stat_functions_lookupCount, hm]
    have : (["SUM", "SUM"] : List String).count g = 0 := by
      refine List.count_eq_zero.mpr fun hmem => ?_
      rcases List.mem_cons.mp hmem with h | h
      · exact hg h
      · exact hg (List.mem_singleton.mp h)
    rw [this]
    omega

/-- Witness for C3: in a table where only `MAX` has been seen, the
formula `=SUM(A1:A3)+SUM(B1:B3)` leaves the `MAX` count unchanged. -/
theorem function_counter_witness :
    ("MAX" : String) ≠ "SUM"
    ∧ lookupCount (stat_functions [("MAX", 3)] "=SUM(A1:A3)+SUM(B1:B3)") "MAX"
        = lookupCount [("MAX", 3)] "MAX" :=
  ⟨by decide,
   (function_counter_counts_per_occurrence.2 [("MAX", 3)]).2 "MAX" (by decide)⟩

/-- C4: a cell whose string value starts with `=` is added as a node
carrying attribute `sheet = sheetName` (also when extraction yields
nothing, in which case the scan of that cell adds no edges at all); a
cell whose value is not such a formula string leaves the state
completely untouched. -/
theorem formula_cells_become_nodes_nonformulas_do_not
    (extract : String → ExtractResult) (st : DiGraph × FuncDict)
    (S coord : String) (v : CellValue) (hS : '!' ∉ S.data) :
    (isFormulaValue v = true →
        (S ++ "!" ++ coord) ∈ (process_cell extract S coord v st).1.nodes
        ∧ (process_cell extract S coord v st).1.nodeSheet (S ++ "!" ++ coord)
            = some S)
    ∧ (isFormulaValue v = false → process_cell extract S coord v st = st)
    ∧ (∀ s : String, v = CellValue.str s → startsWithEqSign s = true →
        extract s = ⟨[], [], []⟩ →
        (process_cell extract S coord v st).1.edges = st.1.edges) := by
  refine ⟨?_, process_cell_nonformula extract S coord v st, ?_⟩
  · intro hf
    cases v with
    | other => simp [isFormulaValue] at hf
    | str s =>
        have hs : startsWithEqSign s = true := by simpa [isFormulaValue] using hf
        rw [process_cell_formula extract S coord s st hs]
        have hbase : (S ++ "!" ++ coord) ∈ (st.1.add_node (S ++ "!" ++ coord) S).nodes
            ∧ (st.1.add_node (S ++ "!" ++ coord) S).nodeSheet (S ++ "!" ++ coord)
                = some S := by
          refine ⟨mem_nodes_add_node_self _ _ _, ?_⟩
          rw [nodeSheet_add_node, if_pos rfl]
        have h1 := foldl_preserve
          (fun g : DiGraph => (S ++ "!" ++ coord) ∈ g.nodes
            ∧ g.nodeSheet (S ++ "!" ++ coord) = some S)
          (processDirectRef S (S ++ "!" ++ coord))
          (fun g r hg => ⟨mem_nodes_processDirectRef _ _ _ g r hg.1,
            nodeSheet_processDirectRef _ _ _ g r hg.2⟩)
          (extract s).direct _ hbase
        have h2 := foldl_preserve
          (fun g : DiGraph => (S ++ "!" ++ coord) ∈ g.nodes
            ∧ g.nodeSheet (S ++ "!" ++ coord) = some S)
          (processRangeRef S (S ++ "!" ++ coord))
          (fun g r hg => ⟨mem_nodes_processRangeRef _ _ _ g r hg.1,
            nodeSheet_processRangeRef _ _ _ g r hg.2⟩)
          (extract s).ranges _ h1
        exact foldl_preserve
          (fun g : DiGraph => (S ++ "!" ++ coord) ∈ g.nodes
            ∧ g.nodeSheet (S ++ "!" ++ coord) = some S)
          (processRangeDep S)
          (fun g p hg => ⟨mem_nodes_processRangeDep _ _ g p hg.1,
            nodeSheet_processRangeDep S coord hS g p hg.2⟩)
          (extract s).rangeDeps _ h2
  · intro s hv hsw hempty
    subst hv
    rw [process_cell_formula extract S coord s st hsw, hempty]
    rfl

/-- Witness for C4: cell `C1` of `Sheet1` holding `=1+1` (a formula with
no references) still becomes the node `Sheet1!C1` with `sheet` attribute
`Sheet1`. -/
theorem formula_cells_witness :
    ('!' ∉ ("Sheet1" : String).data)
    ∧ isFormulaValue (CellValue.str "=1+1") = true
    ∧ ("Sheet1" ++ "!" ++ "C1")
        ∈ (process_cell extract_references "Sheet1" "C1" (CellValue.str "=1+1")
            (emptyDiGraph, [])).1.nodes
    ∧ (process_cell extract_references "Sheet1" "C1" (CellValue.str "=1+1")
        (emptyDiGraph, [])).1.nodeSheet ("Sheet1" ++ "!" ++ "C1") = some "Sheet1" :=
  have h := (formula_cells_become_nodes_nonformulas_do_not extract_references
    (emptyDiGraph, []) "Sheet1" "C1" (CellValue.str "=1+1") (by decide)).1 (by decide)
  ⟨by decide, by decide, h.1, h.2⟩

/-- C5: the dependency graph is a simple digraph — after any scan the
edge list holds each ordered pair at most once, and adding an ordered
pair that is already present leaves the edge set unchanged. -/
theorem graph_is_simple_digraph :
    (∀ (extract : String → ExtractResult) (wb : Workbook),
        (extract_formulas_and_build_dependencies extract wb).1.edges.Nodup)
    ∧ ∀ (g : DiGraph) (u v : String),
        ((g.add_edge u v).add_edge u v).edges = (g.add_edge u v).edges :=
  ⟨nodup_extract_build, eq_add_edge_self⟩

/-- C6: a self-referencing formula is neither rejected nor stripped: the
scan of a workbook whose Sheet1 cell A1 holds `=A1+1` completes and its
edge set is exactly the self-edge `Sheet1!A1 -> Sheet1!A1`. -/
theorem self_reference_cycle_kept :
    ("Sheet1!A1", "Sheet1!A1")
      ∈ (extract_formulas_and_build_dependencies extract_references
          [("Sheet1", [("A1", CellValue.str "=A1+1")])]).1.edges
    ∧ (extract_formulas_and_build_dependencies extract_references
        [("Sheet1", [("A1", CellValue.str "=A1+1")])]).1.edges
      = [("Sheet1!A1", "Sheet1!A1")] := by
  decide

/-- C10: direct-reference and range-reference nodes always get attribute
`sheet = ` the sheet being scanned, even when the reference is
qualified with a different sheet (the parsed `range_sheet` is dead in
the range loop); only range-member processing parses the sheet out of
the addresses themselves and stores that as the attribute. -/
theorem ref_nodes_carry_scanning_sheet :
    (∀ (g : DiGraph) (S cc r : String), hasBang r = true →
        (processDirectRef S cc g r).nodeSheet r = some S)
    ∧ (∀ (g : DiGraph) (S cc r : String), hasBang r = true →
        (processRangeRef S cc g r).nodeSheet r = some S)
    ∧ (∀ (g : DiGraph) (S : String) (p : String × String), hasBang p.1 = true →
        p.1 ≠ qualifyWith S p.2 →
        (processRangeDep S g p).nodeSheet p.1 = some (splitBang p.1))
    ∧ ∀ (g : DiGraph) (S : String) (p : String × String),
        (processRangeDep S g p).nodeSheet (qualifyWith S p.2)
          = some (if hasBang p.2 then splitBang p.2 else S) := by
  refine ⟨?_, ?_, ?_, ?_⟩
  · intro g S cc r h
    rw [processDirectRef_eq, qualifyWith_of_bang S r h, nodeSheet_add_edge,
      nodeSheet_add_node, if_pos rfl]
  · intro g S cc r h
    rw [processRangeRef_eq, qualifyWith_of_bang S r h, nodeSheet_add_edge,
      nodeSheet_add_node, if_pos rfl]
  · intro g S p h1 hne
    rw [processRangeDep_eq, nodeSheet_add_edge, nodeSheet_add_node,
      nodeSheet_add_node, qualifyWith_of_bang S p.1 h1, if_neg hne, if_pos rfl,
      if_pos h1]
  · intro g S p
    rw [processRangeDep_eq, nodeSheet_add_edge, nodeSheet_add_node, if_pos rfl]
    by_cases h2 : hasBang p.2 = true
    · rw [if_pos h2, if_pos h2, qualifyWith_of_bang S p.2 h2]
    · rw [if_neg h2, if_neg h2]

/-- Witness for C10: the reference `Sheet2!C3` processed while scanning
`Sheet1` gets node attribute `sheet = "Sheet1"`, not `Sheet2`. -/
theorem ref_nodes_carry_scanning_sheet_witness :
    hasBang "Sheet2!C3" = true
    ∧ (processDirectRef "Sheet1" "Sheet1!B2" emptyDiGraph "Sheet2!C3").nodeSheet
        "Sheet2!C3" = some "Sheet1" :=
  ⟨by decide,
   ref_nodes_carry_scanning_sheet.1 emptyDiGraph "Sheet1" "Sheet1!B2" "Sheet2!C3"
     (by decide)⟩

/-- C7: the summary reporter is a pure function of the finished graph and
function table: under the three fixed headers, in order, it prints the
node count, the edge count, the 10 highest-total-degree nodes and the
whole function table; both listings are stable descending sorts on the
count (a permutation, pairwise descending, and ties kept in
first-insertion order: entries of any fixed count keep their relative
order). -/
theorem summary_report_structure (graph : DiGraph) (functionsdict : FuncDict) :
    print_summary graph functionsdict
      = "=== Dependency Graph Summary ==="
        :: (ljust "Cell/Node count" 28 ++ rjust (toString graph.nodes.length) 5)
        :: (ljust "Dependency count" 28 ++ rjust (toString graph.edges.length) 5)
        :: ""
        :: "=== Nodes with the highest degree ==="
        :: (((sortByCountDesc (degreeList graph)).take 10).map
              (fun p => ljust p.1 28 ++ rjust (toString p.2) 5 ++ " ")
            ++ ["", "=== Formula functions by count ==="]
            ++ (sortByCountDesc functionsdict).map
              (fun p => ljust p.1 28 ++ rjust (toString p.2) 5))
    ∧ (∀ l : List (String × Nat), (sortByCountDesc l).Perm l)
    ∧ (∀ l : List (String × Nat),
        (sortByCountDesc l).Pairwise (fun p q => q.2 ≤ p.2))
    ∧ ∀ (l : List (String × Nat)) (c : Nat),
        (sortByCountDesc l).filter (fun p => decide (p.2 = c))
          = l.filter (fun p => decide (p.2 = c)) := by
  refine ⟨?_, perm_sortByCountDesc, pairwise_sortByCountDesc, filter_sortByCountDesc⟩
  simp [print_summary, List.append_assoc]

/-- C8: render failure is non-fatal to the statistics path: for either
renderer outcome the exit status is 0, the event trace starts with the
complete summary report, and no renderer invocation occurs among those
summary events (the report is emitted before the renderer runs). -/
theorem render_failure_nonfatal (argv : List String) (load : String → Workbook)
    (extract : String → ExtractResult) (oc : RenderOutcome) :
    (mainRun argv load extract oc).2 = 0
    ∧ (∃ rest : List Event,
        (mainRun argv load extract oc).1
          = ((print_summary
                (extract_formulas_and_build_dependencies extract (load (pathOf argv))).1
                (extract_formulas_and_build_dependencies extract (load (pathOf argv))).2).map
              Event.out) ++ rest)
    ∧ ((print_summary
          (extract_formulas_and_build_dependencies extract (load (pathOf argv))).1
          (extract_formulas_and_build_dependencies extract (load (pathOf argv))).2).map
        Event.out).all (fun e => !isRenderCall e) = true := by
  refine ⟨?_, ?_, ?_⟩
  · by_cases h : "--no-visualize" ∈ argv <;> simp [mainRun, h]
  · by_cases h : "--no-visualize" ∈ argv
    · exact ⟨[], by simp [mainRun, h]⟩
    · exact ⟨Event.out "\x1b[1;30;40m\nVisualizing the graph of dependencies.\nThis might take a while...\x1b[0;37;40m\n"
          :: visualize_dependency_graph argv
            (extract_formulas_and_build_dependencies extract (load (pathOf argv))).1
            (pathOf argv) oc,
        by simp [mainRun, h]⟩
  · simp [List.all_eq_true, isRenderCall]

/-- Counterexample to C9 as stated: when the only argument is the flag
`--verbose`, the script still takes `sys.argv[1]` as the document path,
so the path is `"--verbose"` and not the default `Book1.xlsx`. -/
theorem cli_first_arg_flag_counterexample :
    pathOf ["graphbuilder.py", "--verbose"] = "--verbose"
    ∧ pathOf ["graphbuilder.py", "--verbose"] ≠ "Book1.xlsx" := by
  refine ⟨rfl, ?_⟩
  decide

/-- C9 (amended): the flags `--verbose` (trace logging), `--no-visualize`
(skip the renderer) and `--keep-direction` (render directed) are
recognized; the document path is `sys.argv[1]` whenever any argument is
present — including when that argument is itself a flag — and the
default `Book1.xlsx` is used only when no argument at all is given. -/
theorem cli_flag_recognition :
    (∀ (argv : List String) (msg : String),
        ("--verbose" ∈ argv → log argv msg = [msg])
        ∧ ("--verbose" ∉ argv → log argv msg = []))
    ∧ (∀ (argv : List String) (load : String → Workbook)
          (extract : String → ExtractResult) (oc : RenderOutcome),
        ("--no-visualize" ∈ argv →
          (mainRun argv load extract oc).1.all (fun e => !isRenderCall e) = true)
        ∧ ("--no-visualize" ∉ argv →
          Event.renderCall (decide ("--keep-direction" ∈ argv)) (pathOf argv)
            ∈ (mainRun argv load extract oc).1))
    ∧ (∀ (prog a : String) (rest : List String), pathOf (prog :: a :: rest) = a)
    ∧ pathOf [] = "Book1.xlsx"
    ∧ ∀ prog : String, pathOf [prog] = "Book1.xlsx" := by
  refine ⟨?_, ?_, fun prog a rest => rfl, rfl, fun prog => rfl⟩
  · intro argv msg
    constructor
    · intro h; simp [log, h]
    · intro h; simp [log, h]
  · intro argv load extract oc
    constructor
    · intro h
      simp [mainRun, h, List.all_eq_true, isRenderCall]
    · intro h
      simp [mainRun, h, visualize_dependency_graph]

/-- Witness for C9 (amended): with `--verbose` present the log emits the
message, and with no flags the renderer is invoked undirected on the
default path. -/
theorem cli_flag_recognition_witness :
    ("--verbose" ∈ (["prog", "--verbose"] : List String))
    ∧ log ["prog", "--verbose"] "hello" = ["hello"]
    ∧ ("--no-visualize" ∉ (["prog"] : List String))
    ∧ Event.renderCall (decide (("--keep-direction" : String) ∈ (["prog"] : List String)))
        (pathOf ["prog"])
        ∈ (mainRun ["prog"] (fun _ => []) extract_references RenderOutcome.err).1 :=
  ⟨by decide,
   (cli_flag_recognition.1 ["prog", "--verbose"] "hello").1 (by decide),
   by decide,
   (cli_flag_recognition.2.1 ["prog"] (fun _ => []) extract_references
     RenderOutcome.err).2 (by decide)⟩
